import Mathlib

/-!
Verification of the worker-lifecycle core of `dask_jobqueue.core.JobQueueCluster`
(file `src/dask_jobqueue/core.py`), a batch-scheduler adapter for a distributed
cluster.  The Python class is shallowly embedded: its mutable state
(`self.jobs`, `self.n`, the template attributes) becomes the `Cluster`
structure, each method becomes a state-passing function, Python exceptions
become `Except PyErr`, and the external subprocess world is an explicit
oracle parameter giving each spawned process its (stdout, stderr) bytes.
The list of command-line calls issued through `_calls` is returned as a
trace so that claims about "exactly one cancellation call" are statable.
-/

/-- Python exceptions that can be raised by the translated code paths:
`KeyError` (dict lookup / del), `ValueError` (`int(...)` on a bad string),
`UnicodeDecodeError` (`bytes.decode()` on invalid UTF-8) and `IndexError`
(sequence index out of range). -/
inductive PyErr where
  | keyError
  | valueError
  | unicodeDecodeError
  | indexError
deriving DecidableEq, Repr

/-- A Python value that may be passed where the code applies `int(...)`:
either already an `int` or a string to be parsed.  `stop_workers` receives
ints from callers and strings from `scale_down`. -/
inductive PyVal where
  | int (i : Int)
  | str (s : String)
deriving DecidableEq, Repr

/-- Accumulating decimal-digit parse: `none` as soon as a non-digit byte is
seen. -/
def parseNatAux : List Char → Nat → Option Nat
  | [], acc => some acc
  | c :: cs, acc =>
    if 48 ≤ c.toNat ∧ c.toNat ≤ 57 then
      parseNatAux cs (acc * 10 + (c.toNat - 48))
    else
      none

/-- Python `int(s)` on the strings that arise in this code path: an optional
leading minus sign followed by at least one decimal digit (the surrounding
whitespace and plus sign that `int` also tolerates never occur here).
`none` models a raised `ValueError`. -/
def pyIntOfStr (s : String) : Option Int :=
  match s.data with
  | [] => none
  | '-' :: rest =>
    match rest with
    | [] => none
    | _ => (parseNatAux rest 0).map (fun m => -(m : Int))
  | l => (parseNatAux l 0).map (fun m => (m : Int))

/-- Evaluation of `int(x)`: an int is returned unchanged, a string is parsed
as a decimal integer (optionally signed), anything unparseable raises
`ValueError`.  This models `map(int, workers)` in `stop_workers`. -/
def pyToInt : PyVal → Except PyErr Int
  | .int i => .ok i
  | .str s =>
    match pyIntOfStr s with
    | some i => .ok i
    | none => .error .valueError

/-- Left-to-right effectful map in the `Except` monad, mirroring how a Python
list comprehension or `list(map(f, xs))` evaluates its elements in order and
propagates the first exception. -/
def eMapM (f : α → Except PyErr β) : List α → Except PyErr (List β)
  | [] => .ok []
  | x :: xs =>
    match f x with
    | .error e => .error e
    | .ok y =>
      match eMapM f xs with
      | .error e => .error e
      | .ok ys => .ok (y :: ys)

/-- Strict UTF-8 decoding of a byte sequence, as Python's `bytes.decode()`:
`none` models a raised `UnicodeDecodeError`.  Continuation bytes must lie in
the ranges mandated by RFC 3629 (no overlong encodings, no surrogates,
nothing above U+10FFFF). -/
def utf8Decode : List Nat → Option (List Char)
  | [] => some []
  | b :: bs =>
    if b < 128 then
      (utf8Decode bs).map (fun cs => Char.ofNat b :: cs)
    else if 194 ≤ b ∧ b ≤ 223 then
      match bs with
      | b2 :: bs2 =>
        if 128 ≤ b2 ∧ b2 ≤ 191 then
          (utf8Decode bs2).map (fun cs => Char.ofNat ((b - 192) * 64 + (b2 - 128)) :: cs)
        else none
      | [] => none
    else if 224 ≤ b ∧ b ≤ 239 then
      match bs with
      | b2 :: b3 :: bs3 =>
        if (if b = 224 then 160 ≤ b2 ∧ b2 ≤ 191
            else if b = 237 then 128 ≤ b2 ∧ b2 ≤ 159
            else 128 ≤ b2 ∧ b2 ≤ 191) ∧ 128 ≤ b3 ∧ b3 ≤ 191 then
          (utf8Decode bs3).map
            (fun cs => Char.ofNat ((b - 224) * 4096 + (b2 - 128) * 64 + (b3 - 128)) :: cs)
        else none
      | _ => none
    else if 240 ≤ b ∧ b ≤ 244 then
      match bs with
      | b2 :: b3 :: b4 :: bs4 =>
        if (if b = 240 then 144 ≤ b2 ∧ b2 ≤ 191
            else if b = 244 then 128 ≤ b2 ∧ b2 ≤ 143
            else 128 ≤ b2 ∧ b2 ≤ 191) ∧ 128 ≤ b3 ∧ b3 ≤ 191 ∧ 128 ≤ b4 ∧ b4 ≤ 191 then
          (utf8Decode bs4).map
            (fun cs => Char.ofNat ((b - 240) * 262144 + (b2 - 128) * 4096 +
              (b3 - 128) * 64 + (b4 - 128)) :: cs)
        else none
      | _ => none
    else none

/-- Python `str.split(sep)` for a single-character separator: the result has
one more group than there are separator occurrences, and groups may be empty
(`"".split('-') == [""]`, `"-".split('-') == ["", ""]`). -/
def pySplit (sep : Char) : List Char → List (List Char)
  | [] => [[]]
  | c :: rest =>
    if c = sep then
      [] :: pySplit sep rest
    else
      match pySplit sep rest with
      | g :: gs => (c :: g) :: gs
      | [] => [[c]]

/-- Python sequence index `xs[-2]`: the second-to-last element, raising
`IndexError` when the sequence has fewer than two elements.  Used for
`name.split('-')[-2]` in `scale_down`. -/
def pyIndexNeg2 (xs : List (List Char)) : Except PyErr (List Char) :=
  if h : 2 ≤ xs.length then
    .ok (xs.get ⟨xs.length - 2, by omega⟩)
  else
    .error .indexError

/-- Deduplication keeping first occurrences.  Python's set comprehensions in
`scale_down` deduplicate with unspecified iteration order; this model fixes
first-occurrence order (the choice only matters for claims where the set is
a singleton). -/
def pyDedup : List String → List String
  | [] => []
  | x :: xs => x :: (pyDedup xs).filter (fun y => !(y == x))

/-- Registry lookup `self.jobs[w]` on the slot-to-job dict, modelled as an
association list with unique keys. -/
def dictGet (d : List (Int × String)) (k : Int) : Option String :=
  match d.find? (fun p => p.1 == k) with
  | some p => some p.2
  | none => none

/-- Dict assignment `self.jobs[n] = job`: an existing key is updated in
place, a new key is appended (Python dicts preserve insertion order). -/
def dictSet (d : List (Int × String)) (k : Int) (v : String) : List (Int × String) :=
  if d.any (fun p => p.1 == k) then
    d.map (fun p => if p.1 == k then (k, v) else p)
  else
    d ++ [(k, v)]

/-- The registry-cleanup deletion `with ignoring(KeyError): del self.jobs[w]`:
removing a key that is absent is silently tolerated, so this is plain
key removal. -/
def dictDel (d : List (Int × String)) (k : Int) : List (Int × String) :=
  d.filter (fun p => p.1 != k)

/-- Lookup step of `stop_workers`: `self.jobs[w]` raising `KeyError` when the
slot is not registered (the bare `del`-free dict indexing in the list
comprehension `[self.jobs[w] for w in workers]`). -/
def dictLookupE (d : List (Int × String)) (w : Int) : Except PyErr String :=
  match dictGet d w with
  | some j => .ok j
  | none => .error .keyError

/-- One-pass substitution of the placeholder `%(n)d` by `rep`, modelling
Python `template % dict(n=v)` for templates whose only percent-sequences are
occurrences of `%(n)d` (which is what `JobQueueCluster.__init__` builds).
Replacement text is spliced, not rescanned, exactly as in Python's single
left-to-right formatting pass. -/
def substPlaceholder (rep : List Char) : List Char → List Char
  | '%' :: '(' :: 'n' :: ')' :: 'd' :: rest => rep ++ substPlaceholder rep rest
  | c :: rest => c :: substPlaceholder rep rest
  | [] => []

/-- `self._command_template % dict(n=self.n)`: every `%(n)d` in the worker
command template is replaced by the decimal rendering of the slot number. -/
def pySubstN (t : String) (v : Int) : String :=
  ⟨substPlaceholder (toString v).data t.data⟩

/-- Python `%s` conversion of the `job_header` attribute: `str(None)` is the
literal string `"None"`, a string is itself.  This is exactly what
`'%(job_header)s' % dict(job_header=self.job_header)` does when the header
was never overridden. -/
def pyStr : Option String → String
  | none => "None"
  | some s => s

/-- The class attribute `JobQueueCluster._script_template` (after the
`.lstrip()` applied in the source). -/
def script_template : String :=
  "#!/bin/bash\n\n%(job_header)s\n\n%(worker_command)s\n"

/-- `self._script_template % dict(job_header=h, worker_command=wc)`:
Python's single formatting pass over the fixed literal `script_template`
replaces its two placeholders, yielding this concatenation (the substituted
values are not rescanned). -/
def renderScript (h wc : String) : String :=
  "#!/bin/bash\n\n" ++ h ++ "\n\n" ++ wc ++ "\n"

/-- The mutable and configured state of one `JobQueueCluster` instance:
scheduler commands, the (possibly absent) job header, the worker command
template `self._command_template`, the slot-to-job registry `self.jobs`
and the slot counter `self.n`. -/
structure Cluster where
  submit_command : String
  cancel_command : String
  job_header : Option String
  command_template : String
  jobs : List (Int × String)
  n : Int
deriving DecidableEq, Repr

/-- `JobQueueCluster.job_script`: increments the slot counter, then renders
the script template with the job header (via `%s`, so an unset header
renders as the text `None`) and the worker command with the fresh slot
number substituted for `%(n)d`.  Returns the script text and the updated
state. -/
def job_script (c : Cluster) : String × Cluster :=
  let n' := c.n + 1
  (renderScript (pyStr c.job_header) (pySubstN c.command_template n'),
   { c with n := n' })

/-- The `dask-worker` command-line construction from
`JobQueueCluster.__init__`: starting from
`os.path.join(dirname, 'dask-worker %s' % scheduler_address)`, each
non-`None` parameter appends its flag; a configured worker name appends
`--name <name>` followed by the per-slot suffix `-%(n)d` that `job_script`
later fills in.  (The `interface` branch of the source only rewrites
`extra` and the host before this point, so it is absorbed into the
`addr`/`extra` arguments here.) -/
def build_command_template (dirname addr : String) (threads processes : Option Int)
    (memory : Option String) (name : Option String) (death_timeout : Option String)
    (local_directory : Option String) (extra : Option String) : String :=
  let t := dirname ++ "/" ++ "dask-worker " ++ addr
  let t := match threads with
    | some th => t ++ " --nthreads " ++ toString th
    | none => t
  let t := match processes with
    | some p => t ++ " --nprocs " ++ toString p
    | none => t
  let t := match memory with
    | some m => t ++ " --memory-limit " ++ m
    | none => t
  let t := match name with
    | some nm => t ++ " --name " ++ nm ++ "-%(n)d"
    | none => t
  let t := match death_timeout with
    | some d => t ++ " --death-timeout " ++ d
    | none => t
  let t := match local_directory with
    | some ld => t ++ " --local-directory " ++ ld
    | none => t
  match extra with
  | some e => t ++ e
  | none => t

/-- Loop body of `start_workers`: for each of the remaining iterations,
render a fresh job script (minting a slot), submit it (`self._call` with the
submit command; the trace records the script text in place of the transient
temp-file name, since the file holds exactly that text), run the `_calls`
stderr branch (`if err: logger.error(err.decode())`, which raises if stderr
is non-empty and undecodable; the log itself is not tracked here), decode
the stdout, take the text before the first `'.'` as the job id, record
`self.jobs[self.n] = job` and collect `self.n`.  A raised exception aborts
the loop; the state already mutated (counter, earlier registry entries)
survives, as it does on the Python object. -/
def startLoop (env : Int → List Nat × List Nat) :
    Nat → Cluster → List Int → List (List String) →
    Except PyErr (List Int) × Cluster × List (List String)
  | 0, c, ws, tr => (.ok ws, c, tr)
  | k + 1, c, ws, tr =>
    let sc := job_script c
    let c1 := sc.2
    let tr1 := tr ++ [[c1.submit_command, sc.1]]
    let oe := env c1.n
    if oe.2 ≠ [] ∧ utf8Decode oe.2 = none then
      (.error .unicodeDecodeError, c1, tr1)
    else
      match utf8Decode oe.1 with
      | none => (.error .unicodeDecodeError, c1, tr1)
      | some chars =>
        let job : String := ⟨(pySplit '.' chars).headD []⟩
        startLoop env k { c1 with jobs := dictSet c1.jobs c1.n job }
          (ws ++ [c1.n]) tr1

/-- `JobQueueCluster.start_workers(n)`: runs the submission loop
`for _ in range(n)` (a non-positive `n` gives zero iterations) and returns
the list of newly minted slot ids.  `env` is the external world: the
(stdout, stderr) bytes of the submission process for each slot number. -/
def start_workers (env : Int → List Nat × List Nat) (k : Int) (c : Cluster) :
    Except PyErr (List Int) × Cluster × List (List String) :=
  startLoop env k.toNat c [] []

/-- `JobQueueCluster.stop_workers(workers)`: no-op on an empty argument;
otherwise coerce every element with `int(...)`, resolve each slot to its
job id (raising `KeyError` before anything else happens if a slot is not
registered), issue the single batch cancellation call
`[cancel_command] + jobs`, run the `_calls` stderr branch for that process
(`cancelErr` are its stderr bytes; non-empty undecodable stderr raises
before the registry is cleaned), then delete each slot from the registry,
tolerating keys that are already gone. -/
def stop_workers (cancelErr : List Nat) (workers : List PyVal) (c : Cluster) :
    Except PyErr Unit × Cluster × List (List String) :=
  if workers.isEmpty then
    (.ok (), c, [])
  else
    match eMapM pyToInt workers with
    | .error e => (.error e, c, [])
    | .ok ws =>
      match eMapM (dictLookupE c.jobs) ws with
      | .error e => (.error e, c, [])
      | .ok js =>
        let tr := [c.cancel_command :: js]
        if cancelErr ≠ [] ∧ utf8Decode cancelErr = none then
          (.error .unicodeDecodeError, c, tr)
        else
          (.ok (), { c with jobs := ws.foldl dictDel c.jobs }, tr)

/-- `JobQueueCluster.scale_up(n)`: delegates to
`start_workers(n - len(self.jobs))`. -/
def scale_up (env : Int → List Nat × List Nat) (n : Int) (c : Cluster) :
    Except PyErr (List Int) × Cluster × List (List String) :=
  start_workers env (n - c.jobs.length) c

/-- A worker descriptor as consumed by `scale_down`: the `v['name']` field of
each value of the mapping. -/
structure WorkerDesc where
  name : String
deriving DecidableEq, Repr

/-- The argument of `scale_down`, which the source guards with
`isinstance(workers, dict)`: either a mapping from arbitrary handles to
descriptors, or some non-mapping value (e.g. a plain list of slot ids). -/
inductive PyArg where
  | dict (m : List (String × WorkerDesc))
  | list (xs : List PyVal)

/-- `JobQueueCluster.scale_down(workers)`: only acts when the argument is a
mapping.  Collects the set of descriptor names, extracts
`name.split('-')[-2]` from each (raising `IndexError` on names with fewer
than two `-`-separated segments), deduplicates, and hands the resulting set
of strings to `stop_workers`.  A non-mapping argument falls through the
`isinstance` guard: nothing happens. -/
def scale_down (cancelErr : List Nat) (arg : PyArg) (c : Cluster) :
    Except PyErr Unit × Cluster × List (List String) :=
  match arg with
  | .list _ => (.ok (), c, [])
  | .dict m =>
    let names := pyDedup (m.map (fun p => p.2.name))
    match eMapM (fun nm => pyIndexNeg2 (pySplit '-' nm.data)) names with
    | .error e => (.error e, c, [])
    | .ok segs =>
      let job_ids := pyDedup (segs.map (fun l => (⟨l⟩ : String)))
      stop_workers cancelErr (job_ids.map PyVal.str) c

/-- Loop of `JobQueueCluster._calls`: all processes are spawned first (their
behaviour is the oracle `exec`, giving each command its (stdout, stderr)
bytes), then each is awaited in input order; non-empty stderr is decoded and
appended to the log (`logger.error(err.decode())`, which raises
`UnicodeDecodeError` on undecodable stderr, discarding the results), and the
stdout is appended to the result list. -/
def pyCallsLoop (exec : List String → List Nat × List Nat) :
    List (List String) → List (List Nat) → List String →
    Except PyErr (List (List Nat)) × List String
  | [], acc, log => (.ok acc, log)
  | cmd :: rest, acc, log =>
    let oe := exec cmd
    if oe.2 = [] then
      pyCallsLoop exec rest (acc ++ [oe.1]) log
    else
      match utf8Decode oe.2 with
      | none => (.error .unicodeDecodeError, log)
      | some s => pyCallsLoop exec rest (acc ++ [oe.1]) (log ++ [⟨s⟩])

/-- `JobQueueCluster._calls(cmds)`: returns one stdout per command, in input
order, together with the stderr log. -/
def pyCalls (exec : List String → List Nat × List Nat) (cmds : List (List String)) :
    Except PyErr (List (List Nat)) × List String :=
  pyCallsLoop exec cmds [] []

/-- One externally visible operation on a `JobQueueCluster`, with the
external-world data it consumes: submission outputs for the start
operations, cancel-process stderr for the stop ones. -/
inductive Op where
  | start (env : Int → List Nat × List Nat) (k : Int)
  | stop (cancelErr : List Nat) (ws : List PyVal)
  | scaleUp (env : Int → List Nat × List Nat) (n : Int)
  | scaleDown (cancelErr : List Nat) (arg : PyArg)

/-- Run one operation, returning the state after it (exceptions leave the
object alive with its mutated state) and the list of slot ids it returned,
when it returned one. -/
def runOp : Op → Cluster → Cluster × Option (List Int)
  | .start env k, c =>
    let r := start_workers env k c
    (r.2.1, r.1.toOption)
  | .stop e ws, c => ((stop_workers e ws c).2.1, none)
  | .scaleUp env n, c =>
    let r := scale_up env n c
    (r.2.1, r.1.toOption)
  | .scaleDown e a, c => ((scale_down e a c).2.1, none)

/-- Run a sequence of operations from a state, collecting every slot-id list
returned by a (successful) `start_workers`, in call order. -/
def runOps : List Op → Cluster → Cluster × List (List Int)
  | [], c => (c, [])
  | op :: ops, c =>
    let r := runOp op c
    let rest := runOps ops r.1
    (rest.1, (match r.2 with | some ws => [ws] | none => []) ++ rest.2)

/-- The consecutive slot ids minted by a run of `k` successful submission
iterations starting from counter value `s`. -/
def mintedSlots (s : Int) : Nat → List Int
  | 0 => []
  | k + 1 => (s + 1) :: mintedSlots (s + 1) k

/-- Decidable equality on `Except` results, so concrete runs of the
embedded operations can be checked by `decide`. -/
instance {ε α : Type} [DecidableEq ε] [DecidableEq α] : DecidableEq (Except ε α) := fun x y =>
  match x, y with
  | .ok a, .ok b =>
    if h : a = b then isTrue (by rw [h]) else isFalse (fun hh => h (Except.ok.inj hh))
  | .ok _, .error _ => isFalse (fun hh => Except.noConfusion hh)
  | .error _, .ok _ => isFalse (fun hh => Except.noConfusion hh)
  | .error e, .error f =>
    if h : e = f then isTrue (by rw [h]) else isFalse (fun hh => h (Except.error.inj hh))

/-- The spec's end-to-end example state: registry `{1: "101", 2: "102"}`
with `qsub`/`qdel` as scheduler commands. -/
def cEx : Cluster :=
  ⟨"qsub", "qdel", some "#PBS", "cmd-%(n)d", [(1, "101"), (2, "102")], 2⟩

/-- Submission environment whose stdout is the invalid UTF-8 byte 0xFF:
`out.decode()` raises on it. -/
def envBad : Int → List Nat × List Nat := fun _ => ([255], [])

/-- A fresh adapter state used for the submission-failure scenarios. -/
def cEx4 : Cluster := ⟨"qsub", "qdel", some "#HEADER", "cmd", [], 0⟩

/-- Adapter state whose registry maps slot 42 to the scheduler job "101". -/
def cEx6 : Cluster := ⟨"qsub", "qdel", some "#HEADER", "x", [(42, "101")], 50⟩

/-- The worker-descriptor mapping from the claim's example. -/
def arg6 : PyArg := .dict [("w1", ⟨"dask-worker-42-abc"⟩)]

/-- The prefix of the default worker command template, up to the `--name`
value's slot suffix. -/
def cmdA : String :=
  "/opt/conda/bin/dask-worker tcp://127.0.0.1:8786 --nthreads 4 --nprocs 6 --memory-limit 16GB --name dask-worker-"

/-- The suffix of the default worker command template, after the slot
placeholder. -/
def cmdB : String := " --death-timeout 60"

/-- An adapter state whose command template was built by the constructor
with the default parameters. -/
def cEx7 : Cluster :=
  ⟨"qsub", "qdel", some "#PBS -l nodes=1",
   build_command_template "/opt/conda/bin" "tcp://127.0.0.1:8786" (some 4) (some 6)
     (some "16GB") (some "dask-worker") (some "60") none (some ""), [], 0⟩

/-- Base-configuration state: the job header was never overridden
(`self.job_header = None`). -/
def cEx8 : Cluster := ⟨"qsub", "qdel", none, "cmd", [], 0⟩

/-- A benign submission environment: every submission prints the bytes of
`"100"` on stdout and nothing on stderr. -/
def envOk : Int → List Nat × List Nat := fun _ => ([49, 48, 48], [])

/-- An operation sequence exercising C1: start two workers, cancel the
first, start two more. -/
def opsEx : List Op :=
  [Op.start envOk 2, Op.stop [] [PyVal.int 1], Op.start envOk 2]

/-! ### Lemmas about the string substitution -/

lemma substPlaceholder_nil (rep : List Char) : substPlaceholder rep [] = [] := rfl

lemma substPlaceholder_pattern (rep l : List Char) :
    substPlaceholder rep ('%' :: '(' :: 'n' :: ')' :: 'd' :: l) = rep ++ substPlaceholder rep l :=
  rfl

lemma substPlaceholder_cons_ne (rep : List Char) (c : Char) (l : List Char) (hc : c ≠ '%') :
    substPlaceholder rep (c :: l) = c :: substPlaceholder rep l := by
  rw [substPlaceholder.eq_def]
  split
  · rename_i heq
    simp at heq
    exact absurd heq.1 hc
  · rename_i c2 rest2 _ heq
    injection heq with h1 h2
    rw [h1, h2]
  · rename_i heq
    simp at heq

lemma substPlaceholder_append_no_pct (rep : List Char) (A l : List Char) (hA : '%' ∉ A) :
    substPlaceholder rep (A ++ l) = A ++ substPlaceholder rep l := by
  induction A with
  | nil => simp
  | cons c A ih =>
    have hc : c ≠ '%' := by intro h; exact hA (h ▸ List.mem_cons_self c A)
    rw [List.cons_append, substPlaceholder_cons_ne rep c _ hc,
      ih (fun h => hA (List.mem_cons_of_mem c h))]
    rfl

lemma substPlaceholder_no_pct (rep : List Char) (l : List Char) (hl : '%' ∉ l) :
    substPlaceholder rep l = l := by
  have h := substPlaceholder_append_no_pct rep l [] hl
  simpa [substPlaceholder_nil] using h

lemma string_data_append (a b : String) : (a ++ b).data = a.data ++ b.data := rfl

lemma string_mk_data (s : String) : (⟨s.data⟩ : String) = s := rfl

/-- Substituting the slot number into a worker-command template that contains
exactly one `%(n)d` placeholder (decomposed as `A ++ "%(n)d" ++ B` with no
percent sign in `A` or `B`) splices exactly one decimal copy of the slot
number at the placeholder position. -/
lemma pySubstN_decomp (A B : String) (v : Int) (hA : '%' ∉ A.data) (hB : '%' ∉ B.data) :
    pySubstN (A ++ "%(n)d" ++ B) v = A ++ toString v ++ B := by
  unfold pySubstN
  have h1 : (A ++ "%(n)d" ++ B).data = A.data ++ ('%' :: '(' :: 'n' :: ')' :: 'd' :: B.data) := by
    rw [string_data_append, string_data_append, List.append_assoc]
    rfl
  rw [h1, substPlaceholder_append_no_pct _ _ _ hA, substPlaceholder_pattern,
    substPlaceholder_no_pct _ _ hB]
  have h2 : (A ++ toString v ++ B).data = A.data ++ ((toString v).data ++ B.data) := by
    rw [string_data_append, string_data_append, List.append_assoc]
  rw [← string_mk_data (A ++ toString v ++ B), h2]

/-! ### Lemmas about eMapM and the registry -/

lemma eMapM_int (slots : List Int) :
    eMapM pyToInt (slots.map PyVal.int) = .ok slots := by
  induction slots with
  | nil => rfl
  | cons s ss ih => simp [eMapM, pyToInt, ih]

lemma eMapM_lookup_ok (d : List (Int × String)) (slots : List Int)
    (h : ∀ s ∈ slots, (dictGet d s).isSome) :
    eMapM (dictLookupE d) slots = .ok (slots.map (fun s => (dictGet d s).getD "")) := by
  induction slots with
  | nil => rfl
  | cons s ss ih =>
    have hs := h s (List.mem_cons_self s ss)
    obtain ⟨j, hj⟩ := Option.isSome_iff_exists.mp hs
    simp [eMapM, dictLookupE, hj, ih (fun x hx => h x (List.mem_cons_of_mem s hx))]

lemma eMapM_lookup_err (d : List (Int × String)) (slots : List Int)
    (h : ∃ s ∈ slots, dictGet d s = none) :
    eMapM (dictLookupE d) slots = .error .keyError := by
  induction slots with
  | nil => simp at h
  | cons s ss ih =>
    by_cases hs : dictGet d s = none
    · simp [eMapM, dictLookupE, hs]
    · obtain ⟨j, hj⟩ := Option.ne_none_iff_exists'.mp hs
      have : ∃ x ∈ ss, dictGet d x = none := by
        obtain ⟨x, hx, hxn⟩ := h
        rcases List.mem_cons.mp hx with rfl | hx'
        · exact absurd hxn hs
        · exact ⟨x, hx', hxn⟩
      simp [eMapM, dictLookupE, hj, ih this]

lemma foldl_dictDel (ws : List Int) (d : List (Int × String)) :
    ws.foldl dictDel d = d.filter (fun p => !ws.contains p.1) := by
  induction ws generalizing d with
  | nil => simp
  | cons w ws ih =>
    rw [List.foldl_cons, ih]
    unfold dictDel
    rw [List.filter_filter]
    apply List.filter_congr
    intro p _
    by_cases h1 : p.1 = w <;> by_cases h2 : p.1 ∈ ws <;>
      simp [List.contains_cons, h1, h2]

lemma dictDel_idem (d : List (Int × String)) (k : Int) :
    dictDel (dictDel d k) k = dictDel d k := by
  unfold dictDel
  rw [List.filter_filter]
  apply List.filter_congr
  intro p _
  by_cases h : p.1 = k <;> simp [h]

lemma mem_dictSet (d : List (Int × String)) (k : Int) (v : String) (p : Int × String)
    (hp : p ∈ dictSet d k v) : p.1 = k ∨ p ∈ d := by
  unfold dictSet at hp
  split at hp
  · obtain ⟨q, hq, hpq⟩ := List.mem_map.mp hp
    by_cases h : q.1 = k
    · simp [h] at hpq
      left
      rw [← hpq]
    · simp [h] at hpq
      right
      rw [← hpq]
      exact hq
  · rcases List.mem_append.mp hp with h | h
    · right; exact h
    · left
      simp at h
      rw [h]

lemma dictGet_none_of_lt (d : List (Int × String)) (k : Int)
    (h : ∀ p ∈ d, p.1 < k) : dictGet d k = none := by
  unfold dictGet
  have : d.find? (fun p => p.1 == k) = none := by
    rw [List.find?_eq_none]
    intro p hp
    simp
    exact Int.ne_of_lt (h p hp)
  rw [this]

lemma mem_mintedSlots (s : Int) (k : Nat) (x : Int) :
    x ∈ mintedSlots s k ↔ s < x ∧ x ≤ s + k := by
  induction k generalizing s with
  | zero => simp [mintedSlots]
  | succ m ih =>
    simp [mintedSlots, ih]
    omega

lemma mintedSlots_sorted (s : Int) (k : Nat) :
    (mintedSlots s k).Sorted (· < ·) := by
  induction k generalizing s with
  | zero => simp [mintedSlots]
  | succ m ih =>
    rw [mintedSlots, List.sorted_cons]
    refine ⟨fun y hy => ?_, ih (s + 1)⟩
    rw [mem_mintedSlots] at hy
    omega

/-! ### Lemmas about the start_workers loop -/

lemma startLoop_ok (env : Int → List Nat × List Nat) (k : Nat) :
    ∀ (c : Cluster) (ws W : List Int) (tr tr' : List (List String)) (c' : Cluster),
    startLoop env k c ws tr = (.ok W, c', tr') →
    W = ws ++ mintedSlots c.n k ∧ c'.n = c.n + k := by
  induction k with
  | zero =>
    intro c ws W tr tr' c' h
    simp [startLoop] at h
    simp [mintedSlots, h.1, h.2.1]
  | succ m ih =>
    intro c ws W tr tr' c' h
    rw [startLoop] at h
    split at h
    · simp at h
    · split at h
      · simp at h
      · rename_i chars hchars
        have h2 := ih _ _ _ _ _ _ h
        simp only [job_script] at h2
        constructor
        · rw [h2.1, mintedSlots]
          simp
        · omega

lemma startLoop_n_le (env : Int → List Nat × List Nat) (k : Nat) :
    ∀ (c : Cluster) (ws : List Int) (tr : List (List String)),
    c.n ≤ (startLoop env k c ws tr).2.1.n := by
  induction k with
  | zero => intro c ws tr; simp [startLoop]
  | succ m ih =>
    intro c ws tr
    rw [startLoop]
    split
    · simp [job_script]
    · split
      · simp [job_script]
      · rename_i chars hchars
        have h := ih { (job_script c).2 with
            jobs := dictSet (job_script c).2.jobs (job_script c).2.n
              ⟨(pySplit '.' chars).headD []⟩ }
          (ws ++ [(job_script c).2.n])
          (tr ++ [[(job_script c).2.submit_command, (job_script c).1]])
        simp only [job_script] at h ⊢
        omega

lemma startLoop_err_keys (env : Int → List Nat × List Nat) (k : Nat) :
    ∀ (c : Cluster) (ws : List Int) (tr tr' : List (List String)) (e : PyErr) (c' : Cluster),
    startLoop env k c ws tr = (.error e, c', tr') →
    (∀ p ∈ c.jobs, p.1 ≤ c.n) →
    c.n < c'.n ∧ ∀ p ∈ c'.jobs, p.1 < c'.n := by
  induction k with
  | zero =>
    intro c ws tr tr' e c' h _
    simp [startLoop] at h
  | succ m ih =>
    intro c ws tr tr' e c' h hkeys
    rw [startLoop] at h
    split at h
    · simp [job_script] at h
      obtain ⟨-, hc', -⟩ := h
      subst hc'
      refine ⟨by show c.n < c.n + 1; omega, ?_⟩
      intro p hp
      have hb := hkeys p hp
      show p.1 < c.n + 1
      omega
    · split at h
      · simp [job_script] at h
        obtain ⟨-, hc', -⟩ := h
        subst hc'
        refine ⟨by show c.n < c.n + 1; omega, ?_⟩
        intro p hp
        have hb := hkeys p hp
        show p.1 < c.n + 1
        omega
      · rename_i chars hchars
        have h2 := ih _ _ _ _ _ _ h (by
          intro p hp
          simp only [job_script] at hp ⊢
          rcases mem_dictSet _ _ _ _ hp with h3 | h3
          · omega
          · have := hkeys p h3
            omega)
        simp only [job_script] at h2
        constructor
        · omega
        · exact h2.2

/-! ### State-preservation lemmas for the other operations -/

lemma stop_workers_n (e : List Nat) (ws : List PyVal) (c : Cluster) :
    ((stop_workers e ws c).2.1).n = c.n := by
  unfold stop_workers
  split
  · rfl
  · split
    · rfl
    · split
      · rfl
      · split
        · rfl
        · rfl

lemma scale_down_n (e : List Nat) (a : PyArg) (c : Cluster) :
    ((scale_down e a c).2.1).n = c.n := by
  unfold scale_down
  split
  · rfl
  · dsimp only
    split
    · rfl
    · exact stop_workers_n _ _ _

lemma start_workers_n_le (env : Int → List Nat × List Nat) (k : Int) (c : Cluster) :
    c.n ≤ ((start_workers env k c).2.1).n :=
  startLoop_n_le env k.toNat c [] []

lemma start_workers_ok_ws (env : Int → List Nat × List Nat) (k : Int) (c : Cluster)
    (W : List Int) (h : (start_workers env k c).1 = .ok W) :
    W = mintedSlots c.n k.toNat ∧ ((start_workers env k c).2.1).n = c.n + k.toNat := by
  have h2 : start_workers env k c =
      ((start_workers env k c).1, (start_workers env k c).2.1, (start_workers env k c).2.2) := rfl
  rw [h] at h2
  have := startLoop_ok env k.toNat c [] W [] (start_workers env k c).2.2
    (start_workers env k c).2.1 h2
  simpa using this

/-! ### The slot-uniqueness invariant over operation sequences -/

lemma except_toOption_some (r : Except PyErr (List Int)) (ws : List Int)
    (h : r.toOption = some ws) : r = .ok ws := by
  cases r with
  | ok a => simpa [Except.toOption] using h
  | error e => simp [Except.toOption] at h

lemma runOp_spec (op : Op) (c : Cluster) :
    c.n ≤ (runOp op c).1.n ∧
    ∀ ws, (runOp op c).2 = some ws →
      ws.Sorted (· < ·) ∧ ∀ x ∈ ws, c.n < x ∧ x ≤ (runOp op c).1.n := by
  cases op with
  | start env k =>
    refine ⟨start_workers_n_le env k c, ?_⟩
    intro ws hws
    have hok := except_toOption_some _ _ hws
    obtain ⟨hW, hn⟩ := start_workers_ok_ws env k c ws hok
    subst hW
    refine ⟨mintedSlots_sorted _ _, ?_⟩
    intro x hx
    rw [mem_mintedSlots] at hx
    show c.n < x ∧ x ≤ ((start_workers env k c).2.1).n
    omega
  | scaleUp env n =>
    refine ⟨start_workers_n_le env (n - c.jobs.length) c, ?_⟩
    intro ws hws
    have hok := except_toOption_some _ _ hws
    obtain ⟨hW, hn⟩ := start_workers_ok_ws env (n - c.jobs.length) c ws hok
    subst hW
    refine ⟨mintedSlots_sorted _ _, ?_⟩
    intro x hx
    rw [mem_mintedSlots] at hx
    show c.n < x ∧ x ≤ ((start_workers env (n - c.jobs.length) c).2.1).n
    omega
  | stop e ws =>
    refine ⟨le_of_eq (stop_workers_n e ws c).symm, ?_⟩
    intro l hl
    simp [runOp] at hl
  | scaleDown e a =>
    refine ⟨le_of_eq (scale_down_n e a c).symm, ?_⟩
    intro l hl
    simp [runOp] at hl

lemma runOps_spec (ops : List Op) : ∀ c : Cluster,
    c.n ≤ (runOps ops c).1.n ∧
    (∀ l ∈ (runOps ops c).2, l.Sorted (· < ·) ∧
      ∀ x ∈ l, c.n < x ∧ x ≤ (runOps ops c).1.n) ∧
    (runOps ops c).2.Pairwise (fun l₁ l₂ => ∀ x ∈ l₁, x ∉ l₂) := by
  induction ops with
  | nil => intro c; simp [runOps]
  | cons op ops ih =>
    intro c
    obtain ⟨h1, h2⟩ := runOp_spec op c
    obtain ⟨g1, g2, g3⟩ := ih (runOp op c).1
    rw [runOps]
    dsimp only
    refine ⟨le_trans h1 g1, ?_, ?_⟩
    · intro l hl
      rcases List.mem_append.mp hl with hl' | hl'
      · cases hop : (runOp op c).2 with
        | none => rw [hop] at hl'; simp at hl'
        | some ws =>
          rw [hop] at hl'
          simp at hl'
          subst hl'
          obtain ⟨hs, hb⟩ := h2 l hop
          exact ⟨hs, fun x hx => ⟨(hb x hx).1, le_trans (hb x hx).2 g1⟩⟩
      · obtain ⟨hs, hb⟩ := g2 l hl'
        exact ⟨hs, fun x hx => ⟨lt_of_le_of_lt h1 (hb x hx).1, (hb x hx).2⟩⟩
    · rw [List.pairwise_append]
      refine ⟨?_, g3, ?_⟩
      · cases hop : (runOp op c).2 <;> simp
      · intro a ha b hb
        cases hop : (runOp op c).2 with
        | none => rw [hop] at ha; simp at ha
        | some ws =>
          rw [hop] at ha
          simp at ha
          subst ha
          intro x hx hxb
          obtain ⟨-, hup⟩ := h2 a hop
          have hx1 := (hup x hx).2
          have hx2 := ((g2 b hb).2 x hxb).1
          omega

/-! ### Command-runner lemma -/

lemma pyCallsLoop_ok (exec : List String → List Nat × List Nat) (cmds : List (List String)) :
    ∀ (acc : List (List Nat)) (log : List String),
    (∀ cmd ∈ cmds, (exec cmd).2 = [] ∨ (utf8Decode (exec cmd).2).isSome) →
    (pyCallsLoop exec cmds acc log).1 = .ok (acc ++ cmds.map (fun cmd => (exec cmd).1)) := by
  induction cmds with
  | nil =>
    intro acc log _
    simp [pyCallsLoop]
  | cons cmd rest ih =>
    intro acc log h
    rw [pyCallsLoop]
    by_cases he : (exec cmd).2 = []
    · rw [if_pos he, ih _ _ (fun x hx => h x (List.mem_cons_of_mem _ hx))]
      simp
    · rw [if_neg he]
      rcases h cmd (List.mem_cons_self _ _) with h0 | h0
      · exact absurd h0 he
      · obtain ⟨s, hs⟩ := Option.isSome_iff_exists.mp h0
        rw [hs]
        rw [ih _ _ (fun x hx => h x (List.mem_cons_of_mem _ hx))]
        simp

/-- A resolved successful `stop_workers` run: when the argument list is
non-empty, every element coerces through `int(...)` to the slot list `ws`,
every such slot is registered, and the cancel process writes no stderr,
the method issues the single batch cancel call and removes exactly the
requested slots from the registry. -/
lemma stop_workers_resolved (workers : List PyVal) (ws : List Int) (c : Cluster)
    (hne : workers ≠ [])
    (hint : eMapM pyToInt workers = .ok ws)
    (hall : ∀ s ∈ ws, (dictGet c.jobs s).isSome) :
    stop_workers [] workers c =
      (.ok (), { c with jobs := c.jobs.filter (fun p => !ws.contains p.1) },
        [c.cancel_command :: ws.map (fun s => (dictGet c.jobs s).getD "")]) := by
  unfold stop_workers
  have hemp : workers.isEmpty = false := by
    cases workers
    · exact absurd rfl hne
    · rfl
  rw [hemp]
  simp only [Bool.false_eq_true, if_false]
  rw [hint]
  dsimp only
  rw [eMapM_lookup_ok c.jobs ws hall]
  dsimp only
  rw [if_neg (by simp)]
  rw [foldl_dictDel]

/-! ### Claim theorems -/

/-- C1: over any sequence of adapter operations (starts, stops, scale-ups and
scale-downs, with arbitrary external-process behaviour), every slot-id list
returned by a successful `start_workers` is strictly increasing, and the
lists returned by distinct calls are pairwise disjoint: a slot id, once
minted by the counter, is never minted again within the adapter's lifetime,
even after its job is cancelled by an intervening stop operation. -/
theorem start_workers_slot_ids_unique (ops : List Op) (c : Cluster) :
    (∀ l ∈ (runOps ops c).2, l.Sorted (· < ·)) ∧
    (runOps ops c).2.Pairwise (fun l₁ l₂ => ∀ x ∈ l₁, x ∉ l₂) := by
  obtain ⟨-, h2, h3⟩ := runOps_spec ops c
  exact ⟨fun l hl => (h2 l hl).1, h3⟩

/-- C2: for a non-empty list of slots that are all registered,
`stop_workers` issues exactly one cancellation call — the cancel command
followed by the job id of every requested slot — and removes exactly those
slots from the registry; for an empty list it issues no call and changes
nothing. -/
theorem stop_workers_batch_cancel :
    (∀ (c : Cluster) (slots : List Int),
      slots ≠ [] →
      (∀ s ∈ slots, (dictGet c.jobs s).isSome) →
      stop_workers [] (slots.map PyVal.int) c =
        (.ok (), { c with jobs := c.jobs.filter (fun p => !slots.contains p.1) },
          [c.cancel_command :: slots.map (fun s => (dictGet c.jobs s).getD "")])) ∧
    (∀ (e : List Nat) (c : Cluster), stop_workers e [] c = (.ok (), c, [])) := by
  constructor
  · intro c slots hne hall
    exact stop_workers_resolved (slots.map PyVal.int) slots c
      (by simpa using hne) (eMapM_int slots) hall
  · intro e c
    rfl

/-- Witness for C2 at the spec's example: `stop_workers([1,2])` issues the
single call `qdel 101 102` and empties the registry. -/
theorem stop_workers_batch_cancel_witness :
    stop_workers [] ([1, 2].map PyVal.int) cEx =
      (.ok (), { cEx with jobs := [] }, [["qdel", "101", "102"]]) := by
  have h := stop_workers_batch_cancel.1 cEx [1, 2] (by decide) (by decide)
  exact h

/-- C3: asking `stop_workers` to cancel a slot that is not registered raises
`KeyError` during the lookup step, before the cancellation call is issued,
leaving the registry unchanged; by contrast the post-call cleanup tolerates
deleting an already-absent slot, as exercised by a duplicated slot: the
second deletion is a silent no-op and the call still succeeds. -/
theorem stop_workers_unknown_slot :
    (∀ (e : List Nat) (c : Cluster) (slots : List Int),
      (∃ s ∈ slots, dictGet c.jobs s = none) →
      stop_workers e (slots.map PyVal.int) c = (.error .keyError, c, [])) ∧
    (∀ (c : Cluster) (s : Int) (j : String),
      dictGet c.jobs s = some j →
      stop_workers [] [PyVal.int s, PyVal.int s] c =
        (.ok (), { c with jobs := dictDel c.jobs s }, [[c.cancel_command, j, j]])) := by
  constructor
  · intro e c slots h
    have hne : slots ≠ [] := by
      rintro rfl
      obtain ⟨s0, hs0, -⟩ := h
      simp at hs0
    unfold stop_workers
    have hemp : (slots.map PyVal.int).isEmpty = false := by
      cases slots
      · exact absurd rfl hne
      · rfl
    rw [hemp]
    simp only [Bool.false_eq_true, if_false]
    rw [eMapM_int slots]
    dsimp only
    rw [eMapM_lookup_err c.jobs slots h]
  · intro c s j hj
    have h := stop_workers_resolved [PyVal.int s, PyVal.int s] [s, s] c
      (by simp) (by simp [eMapM, pyToInt]) (by simp [hj])
    rw [h]
    have hfil : c.jobs.filter (fun p => !([s, s].contains p.1)) = dictDel c.jobs s := by
      unfold dictDel
      apply List.filter_congr
      intro p _
      by_cases hp : p.1 = s <;> simp [hp]
    rw [hfil]
    simp [hj]

/-- Witness for C3: slot 3 is unknown in the example registry, so the
lookup raises and nothing changes; slot 1 duplicated is cancelled once with
its job id repeated, the second registry deletion being tolerated. -/
theorem stop_workers_unknown_slot_witness :
    stop_workers [] ([3].map PyVal.int) cEx = (.error .keyError, cEx, []) ∧
    stop_workers [] [PyVal.int 1, PyVal.int 1] cEx =
      (.ok (), { cEx with jobs := dictDel cEx.jobs 1 }, [["qdel", "101", "101"]]) :=
  ⟨stop_workers_unknown_slot.1 [] cEx [3] (by decide),
   stop_workers_unknown_slot.2 cEx 1 "101" (by decide)⟩

/-- C5: when the target count is at most the current registry size,
`scale_up` starts zero workers — no error, no implicit scale-down, no call
issued, and the state (registry included) is returned unchanged. -/
theorem scale_up_nonpositive_noop (env : Int → List Nat × List Nat) (n : Int) (c : Cluster)
    (h : n ≤ c.jobs.length) :
    scale_up env n c = (.ok [], c, []) := by
  unfold scale_up start_workers
  have h0 : (n - (c.jobs.length : Int)).toNat = 0 := by omega
  rw [h0]
  rfl

/-- Witness for C5: scaling the two-job example cluster up to a target of 1
does nothing. -/
theorem scale_up_nonpositive_noop_witness :
    (1 : Int) ≤ cEx.jobs.length ∧
    scale_up (fun _ => ([], [])) 1 cEx = (.ok [], cEx, []) :=
  ⟨by decide, scale_up_nonpositive_noop (fun _ => ([], [])) 1 cEx (by decide)⟩

/-- C10: a non-mapping argument (for example a plain list of slot ids) makes
`scale_down` a silent no-op: no error, no cancellation call, and the
adapter state is returned unchanged. -/
theorem scale_down_non_mapping_noop (e : List Nat) (xs : List PyVal) (c : Cluster) :
    scale_down e (.list xs) c = (.ok (), c, []) := rfl

/-- Counterexample to C4 as stated: when the submission output cannot be
decoded, `start_workers` does not return a shorter slot list — it raises
`UnicodeDecodeError`, so the caller receives no list at all. -/
theorem start_workers_parse_error_counterexample :
    (start_workers envBad 1 cEx4).1 = .error .unicodeDecodeError ∧
    ∀ ws : List Int, (start_workers envBad 1 cEx4).1 ≠ .ok ws := by
  refine ⟨by decide, ?_⟩
  intro ws
  rw [show (start_workers envBad 1 cEx4).1 = .error .unicodeDecodeError from by decide]
  simp

/-- C4 as amended: when a submission fails to produce a decodable output,
no registry entry is created for the failing slot and the slot counter is
not rolled back — but the failure reaches the caller as a raised exception,
not as a shortened result list. -/
theorem start_workers_parse_error_amended (env : Int → List Nat × List Nat) (k : Int)
    (c c' : Cluster) (e : PyErr) (tr : List (List String))
    (hrun : start_workers env k c = (.error e, c', tr))
    (hkeys : ∀ p ∈ c.jobs, p.1 ≤ c.n) :
    c.n < c'.n ∧ dictGet c'.jobs c'.n = none := by
  obtain ⟨h1, h2⟩ := startLoop_err_keys env k.toNat c [] [] tr e c' hrun hkeys
  exact ⟨h1, dictGet_none_of_lt _ _ h2⟩

/-- Witness for the amended C4: one failing submission advances the counter
from 0 to 1 and leaves slot 1 unregistered. -/
theorem start_workers_parse_error_amended_witness :
    cEx4.n < ({ cEx4 with n := 1 } : Cluster).n ∧
    dictGet ({ cEx4 with n := 1 } : Cluster).jobs ({ cEx4 with n := 1 } : Cluster).n = none :=
  start_workers_parse_error_amended envBad 1 cEx4 { cEx4 with n := 1 } .unicodeDecodeError
    [["qsub", "#!/bin/bash\n\n#HEADER\n\ncmd\n"]] (by decide) (by decide)

/-- Counterexample to C6 as stated: with slot 42 registered to job "101",
`scale_down` on a descriptor named `dask-worker-42-abc` issues the single
cancel call `qdel 101` — the extracted segment `42` is used as a registry
key, and the cancel call nowhere contains `42`. -/
theorem scale_down_counterexample :
    scale_down [] arg6 cEx6 = (.ok (), { cEx6 with jobs := [] }, [["qdel", "101"]]) ∧
    ∀ call ∈ (scale_down [] arg6 cEx6).2.2, ("42" : String) ∉ call := by
  constructor
  · decide
  · decide

/-- C6 as amended: `scale_down` extracts the second-to-last `-`-delimited
segment of each distinct name, deduplicates, and calls `stop_workers` with
that set — which interprets it as slot identifiers: for a descriptor named
`dask-worker-42-abc` and any registry holding slot 42 with job `j`, the
single cancel call carries `j` (not the extracted `42` itself, unless `j`
happens to be `"42"`), and slot 42 is removed from the registry. -/
theorem scale_down_amended (e : List Nat) (c : Cluster) (j : String)
    (hj : dictGet c.jobs 42 = some j) (he : e = []) :
    scale_down e (.dict [("w1", ⟨"dask-worker-42-abc"⟩)]) c =
      (.ok (), { c with jobs := dictDel c.jobs 42 }, [[c.cancel_command, j]]) := by
  subst he
  show stop_workers [] [PyVal.str "42"] c = _
  have h := stop_workers_resolved [PyVal.str "42"] [42] c
    (by simp) (by decide) (by simp [hj])
  rw [h]
  have hfil : c.jobs.filter (fun p => !([(42 : Int)].contains p.1)) = dictDel c.jobs 42 := by
    unfold dictDel
    apply List.filter_congr
    intro p _
    by_cases hp : p.1 = 42 <;> simp [hp]
  rw [hfil]
  simp [hj]

/-- Witness for the amended C6 at the example state: the cancel call is
`qdel 101`. -/
theorem scale_down_amended_witness :
    scale_down [] (.dict [("w1", ⟨"dask-worker-42-abc"⟩)]) cEx6 =
      (.ok (), { cEx6 with jobs := dictDel cEx6.jobs 42 }, [["qdel", "101"]]) :=
  scale_down_amended [] cEx6 "101" (by decide) rfl

/-- C7: each call to the script renderer increments the slot counter by
exactly one (and changes nothing else in the state), and — for a worker
command template whose designated placeholder `%(n)d` occurs exactly once,
decomposed as `A ++ "%(n)d" ++ B` with percent-free `A` and `B` — the
returned text equals the fixed boilerplate with the job header and the
worker command substituted, joined by blank lines, where the command carries
exactly one copy of the newly minted slot number at the placeholder. -/
theorem job_script_round_trip (c : Cluster) (A B : String)
    (hT : c.command_template = A ++ "%(n)d" ++ B)
    (hA : '%' ∉ A.data) (hB : '%' ∉ B.data) :
    (job_script c).2 = { c with n := c.n + 1 } ∧
    (job_script c).1 =
      "#!/bin/bash\n\n" ++ pyStr c.job_header ++ "\n\n" ++
        (A ++ toString (c.n + 1) ++ B) ++ "\n" := by
  refine ⟨rfl, ?_⟩
  show renderScript (pyStr c.job_header) (pySubstN c.command_template (c.n + 1)) = _
  rw [hT, pySubstN_decomp A B _ hA hB]
  rfl

/-- Witness for C7 on the constructor-built default template: the rendered
script is the boilerplate around the header and the command with slot 1
substituted. -/
theorem job_script_round_trip_witness :
    (job_script cEx7).2 = { cEx7 with n := 1 } ∧
    (job_script cEx7).1 =
      "#!/bin/bash\n\n" ++ pyStr cEx7.job_header ++ "\n\n" ++
        (cmdA ++ toString (1 : Int) ++ cmdB) ++ "\n" := by
  have h := job_script_round_trip cEx7 cmdA cmdB (by decide) (by decide) (by decide)
  exact h

/-- Counterexample to C8 as stated: with the job-header template unset,
rendering does not fail with a configuration error — `job_script` returns
normally, silently substituting the literal text `None` (Python's
`str(None)`) for the header in an invalid script. -/
theorem job_script_none_header_counterexample :
    (job_script cEx8).1 = "#!/bin/bash\n\nNone\n\ncmd\n" ∧
    (job_script cEx8).2 = { cEx8 with n := 1 } := by
  constructor
  · decide
  · decide

/-- C8 as amended: if the job header is unset, `job_script` does not raise;
it renders the boilerplate with the literal text `None` in the header
position (and the slot-substituted worker command below it). -/
theorem job_script_none_header_amended (c : Cluster) (h : c.job_header = none) :
    (job_script c).1 =
      "#!/bin/bash\n\n" ++ "None" ++ "\n\n" ++
        pySubstN c.command_template (c.n + 1) ++ "\n" := by
  show renderScript (pyStr c.job_header) (pySubstN c.command_template (c.n + 1)) = _
  rw [h]
  rfl

/-- Witness for the amended C8 at the base configuration. -/
theorem job_script_none_header_amended_witness :
    cEx8.job_header = none ∧
    (job_script cEx8).1 =
      "#!/bin/bash\n\n" ++ "None" ++ "\n\n" ++
        pySubstN cEx8.command_template 1 ++ "\n" :=
  ⟨rfl, job_script_none_header_amended cEx8 rfl⟩

/-- Counterexample to C9 as stated: a command whose non-empty stderr is the
invalid UTF-8 byte 0xFF makes `_calls` raise `UnicodeDecodeError` inside
`logger.error(err.decode())` — non-empty diagnostic output can by itself
cause the call to fail, and no output list is returned. -/
theorem calls_stderr_counterexample :
    (pyCalls (fun _ => ([49], [255])) [["ls"]]).1 = .error .unicodeDecodeError ∧
    ∀ outs : List (List Nat), (pyCalls (fun _ => ([49], [255])) [["ls"]]).1 ≠ .ok outs := by
  refine ⟨by decide, ?_⟩
  intro outs
  rw [show (pyCalls (fun _ => ([49], [255])) [["ls"]]).1 = .error .unicodeDecodeError
    from by decide]
  simp

/-- C9 as amended: for every list of commands each of whose stderr is empty
or at least decodable, the command runner returns exactly one stdout per
command, in input order (the model awaits each process in launch order, so
finish order cannot influence the result), and stderr only feeds the log,
never the outputs. -/
theorem calls_output_order_amended (exec : List String → List Nat × List Nat)
    (cmds : List (List String))
    (h : ∀ cmd ∈ cmds, (exec cmd).2 = [] ∨ (utf8Decode (exec cmd).2).isSome) :
    (pyCalls exec cmds).1 = .ok (cmds.map (fun cmd => (exec cmd).1)) := by
  have h2 := pyCallsLoop_ok exec cmds [] [] h
  simpa [pyCalls] using h2

/-- Witness for the amended C9: two commands, the second with non-empty
decodable stderr; the outputs come back in input order. -/
theorem calls_output_order_amended_witness :
    (pyCalls (fun cmd => if cmd = ["cmdA"] then ([65], []) else ([66], [119]))
      [["cmdA"], ["cmdB"]]).1 = .ok [[65], [66]] := by
  have h := calls_output_order_amended
    (fun cmd => if cmd = ["cmdA"] then ([65], []) else ([66], [119]))
    [["cmdA"], ["cmdB"]] (by decide)
  exact h

/-- Witness for C1 on a concrete run: starting two workers, cancelling slot
1, then starting two more returns the lists `[1, 2]` and `[3, 4]`. -/
theorem start_workers_slot_ids_unique_witness :
    (runOps opsEx cEx8).2 = [[1, 2], [3, 4]] ∧
    ((∀ l ∈ (runOps opsEx cEx8).2, l.Sorted (· < ·)) ∧
      (runOps opsEx cEx8).2.Pairwise (fun l₁ l₂ => ∀ x ∈ l₁, x ∉ l₂)) :=
  ⟨by decide, start_workers_slot_ids_unique opsEx cEx8⟩
